import Mathlib

/-!
# Verification of the Cashflow revenue-analytics service

Shallow embedding of the `StripeService` class (`groupChargesByPeriod`,
`generateInsights`, `analyzeRevenueTrends`, `issueRefund`) from the
repository source.  JavaScript numbers are modelled as exact rationals
(`ℚ`); `Math.round` is `⌊x + 1/2⌋` (round half toward +∞, as in JS);
Stripe minor-unit amounts and Unix timestamps are natural numbers.
Calendar arithmetic (`Date#toISOString`, `getDate`/`getDay`/`setDate`,
`getFullYear`/`getMonth`) is modelled in UTC via the standard
civil-from-days algorithm; the external Stripe API is modelled as an
explicit parameter (the fetched charge list, or a ledger function), with
a thrown failure represented by `Except.error`.
-/

namespace Cashflow

/-- A Stripe charge, restricted to the fields the service reads:
`amount` (integer minor units), `created` (Unix seconds), `status`. -/
structure Charge where
  amount : Nat
  created : Nat
  status : String
deriving DecidableEq, Repr

/-- The `groupBy` argument: `"day" | "week" | "month"`. -/
inductive Granularity where
  | day
  | week
  | month
deriving DecidableEq, Repr

/-- One element of the `periodData` array produced by
`groupChargesByPeriod`. -/
structure PeriodBucket where
  period : String
  revenue : ℚ
  transactionCount : Nat
deriving DecidableEq, Repr

/-- `Math.round` in JavaScript: round half toward positive infinity. -/
def jsRound (x : ℚ) : Int := ⌊x + 1 / 2⌋

/-- `Math.round(x * 100) / 100`: the round-to-2-decimals idiom used at
every output boundary of the service. -/
def jsRound2 (x : ℚ) : ℚ := ((jsRound (x * 100) : ℚ)) / 100

/-- Civil date `(year, month, day)` from a count of days since
1970-01-01, the standard era-based algorithm (UTC, proleptic
Gregorian); this is what `Date#toISOString` renders. -/
def civilFromDays (z0 : Int) : Int × Nat × Nat :=
  let z := Int.fdiv (z0 + 719468) 146097
  let doe := ((z0 + 719468) - z * 146097).toNat
  let yoe := (doe - doe / 1460 + doe / 36524 - doe / 146096) / 365
  let y : Int := (yoe : Int) + z * 400
  let doy := doe - (365 * yoe + yoe / 4 - yoe / 100)
  let mp := (5 * doy + 2) / 153
  let d := doy - (153 * mp + 2) / 5 + 1
  let m := if mp < 10 then mp + 3 else mp - 9
  (if m ≤ 2 then y + 1 else y, m, d)

/-- Left-pad a number below 100 to two digits, as
`String(x).padStart(2, "0")` does. -/
def pad2 (n : Nat) : String := if n < 10 then "0" ++ toString n else toString n

/-- Render a civil date as `YYYY-MM-DD` (the `toISOString().split("T")[0]`
format). -/
def dateToString (ymd : Int × Nat × Nat) : String :=
  toString ymd.1 ++ "-" ++ pad2 ymd.2.1 ++ "-" ++ pad2 ymd.2.2

/-- Day number (days since the epoch) of a charge's creation instant:
`new Date(charge.created * 1000)`, reduced to its UTC date. -/
def dayNumber (c : Charge) : Nat := c.created / 86400

/-- Weekday of a day number with Sunday = 0, as `Date#getDay` returns
(1970-01-01 was a Thursday). -/
def weekdayOf (d : Nat) : Nat := (d + 4) % 7

/-- The `periodKey` computed in the `switch (groupBy)` of
`groupChargesByPeriod`:
* `day`: the UTC date `YYYY-MM-DD`;
* `week`: `weekStart.setDate(date.getDate() - date.getDay() + 1)`,
  i.e. the date shifted by `1 - getDay()` days, rendered `YYYY-MM-DD`;
* `month`: `YYYY-MM`. -/
def keyOf (g : Granularity) (c : Charge) : String :=
  match g with
  | .day => dateToString (civilFromDays (dayNumber c))
  | .week =>
    dateToString (civilFromDays ((dayNumber c : Int) + 1 - weekdayOf (dayNumber c)))
  | .month =>
    let ymd := civilFromDays (dayNumber c)
    toString ymd.1 ++ "-" ++ pad2 ymd.2.1

/-- An entry of the `grouped` map: period key, accumulated revenue
(major units), count.  JS `Map` preserves insertion order, so the map is
an association list with pairwise-distinct keys: updates rewrite the
matching entry in place, new keys append at the end. -/
abbrev Entry := String × ℚ × Nat

/-- `grouped.get(k) || {revenue: 0, count: 0}` followed by
`grouped.set(k, {revenue: existing.revenue + amt / 100, count: existing.count + 1})`. -/
def updateEntry (k : String) (amt : Nat) : List Entry → List Entry
  | [] => [(k, (amt : ℚ) / 100, 1)]
  | (k₀, r, n) :: rest =>
    if k₀ = k then (k₀, r + (amt : ℚ) / 100, n + 1) :: rest
    else (k₀, r, n) :: updateEntry k amt rest

/-- The body of the `charges.forEach` loop of `groupChargesByPeriod`. -/
def addCharge (g : Granularity) (m : List Entry) (c : Charge) : List Entry :=
  updateEntry (keyOf g c) c.amount m

/-- Ordering used by `.sort((a, b) => a.period.localeCompare(b.period))`
on the ASCII period keys: code-point lexicographic order. -/
def charListLe : List Char → List Char → Bool
  | [], _ => true
  | _ :: _, [] => false
  | a :: as, b :: bs => if a < b then true else if b < a then false else charListLe as bs

/-- String comparison for the period sort. -/
def strLe (a b : String) : Bool := charListLe a.data b.data

/-- Insert a bucket into a list sorted ascending by period label. -/
def insertByPeriod (b : PeriodBucket) : List PeriodBucket → List PeriodBucket
  | [] => [b]
  | x :: xs => if strLe b.period x.period then b :: x :: xs else x :: insertByPeriod b xs

/-- `Array#sort` by period label ascending (keys are pairwise distinct,
so any sort realises the comparator). -/
def sortByPeriod : List PeriodBucket → List PeriodBucket
  | [] => []
  | x :: xs => insertByPeriod x (sortByPeriod xs)

/-- The `.map(([period, data]) => ({period, revenue: Math.round(data.revenue * 100) / 100,
transactionCount: data.count}))` step. -/
def toBucket (e : Entry) : PeriodBucket :=
  { period := e.1, revenue := jsRound2 e.2.1, transactionCount := e.2.2 }

/-- `groupChargesByPeriod`: bucket charges by period key, accumulating
`charge.amount / 100` into each bucket's revenue and tallying the count,
then round each bucket's revenue to 2 decimals and sort by period. -/
def groupChargesByPeriod (charges : List Charge) (g : Granularity) : List PeriodBucket :=
  sortByPeriod ((charges.foldl (addCharge g) []).map toBucket)

/-- `Number#toFixed(2)` for the nonnegative monetary values this service
renders: round to the nearest cent (ties up) and print 2 decimals. -/
def qToFixed2 (x : ℚ) : String :=
  let n := (jsRound (x * 100)).toNat
  toString (n / 100) ++ "." ++ pad2 (n % 100)

/-- The "highest revenue period" insight line. -/
def highestLine (b : PeriodBucket) : String :=
  "Highest revenue period: " ++ b.period ++ " with $" ++ qToFixed2 b.revenue

/-- The "lowest revenue period" insight line. -/
def lowestLine (b : PeriodBucket) : String :=
  "Lowest revenue period: " ++ b.period ++ " with $" ++ qToFixed2 b.revenue

/-- The "average revenue per period" insight line. -/
def avgLine (q : ℚ) : String := "Average revenue per period: $" ++ qToFixed2 q

/-- The transaction-volume insight line. -/
def countLine (n : Nat) : String :=
  "Processed " ++ toString n ++ " successful transactions during this period."

/-- Stable insert for the descending-revenue sort: an element is placed
before the first later element whose revenue does not exceed it, so
earlier input elements precede equal-revenue later ones. -/
def insertDesc (b : PeriodBucket) : List PeriodBucket → List PeriodBucket
  | [] => [b]
  | x :: xs => if x.revenue ≤ b.revenue then b :: x :: xs else x :: insertDesc b xs

/-- `[...periodData].sort((a, b) => b.revenue - a.revenue)`: a stable
sort by revenue descending (ES2019 `Array#sort` is stable). -/
def sortByRevenueDesc : List PeriodBucket → List PeriodBucket
  | [] => []
  | x :: xs => insertDesc x (sortByRevenueDesc xs)

/-- Default bucket used only to satisfy totality where the source
indexes a list it has already proved nonempty (`sorted[0]`,
`sorted[sorted.length - 1]`). -/
def dfltBucket : PeriodBucket := { period := "", revenue := 0, transactionCount := 0 }

/-- `generateInsights`: sequentially pushes the best-period line (if any
bucket), the worst-period line (if more than one bucket), the average
line (always), and the volume line (if any transactions). -/
def generateInsights (periodData : List PeriodBucket) (totalRevenue : ℚ) : List String :=
  let insights₀ : List String := []
  let insights₁ :=
    if 0 < periodData.length then
      let sorted := sortByRevenueDesc periodData
      let best := sorted.headD dfltBucket
      let worst := sorted.getLastD dfltBucket
      let pushed := insights₀ ++ [highestLine best]
      if 1 < periodData.length then pushed ++ [lowestLine worst] else pushed
    else insights₀
  let avgPerPeriod :=
    if 0 < periodData.length then totalRevenue / (periodData.length : ℚ) else 0
  let insights₂ := insights₁ ++ [avgLine avgPerPeriod]
  let totalTransactions := periodData.foldl (fun sum p => sum + p.transactionCount) 0
  if 0 < totalTransactions then insights₂ ++ [countLine totalTransactions] else insights₂

/-- The `summary` object of the analytics payload. -/
structure Summary where
  totalRevenue : ℚ
  transactionCount : Nat
  averageTransaction : ℚ
deriving DecidableEq, Repr

/-- The full return value of `analyzeRevenueTrends` (the `error` field
is the optional error message of the catch branch). -/
structure AnalyzeResult where
  summary : Summary
  periodData : List PeriodBucket
  insights : List String
  error : Option String
deriving DecidableEq, Repr

/-- `analyzeRevenueTrends`, with the paginated Stripe fetch abstracted
into its outcome: `Except.ok data` is the concatenation of all fetched
pages, `Except.error msg` is any thrown failure (network, API error,
malformed data), which the catch block turns into a zeroed payload.
The per-page `status === "succeeded"` filter commutes with page
concatenation, so it is applied to the whole list. -/
def analyzeRevenueTrends (fetched : Except String (List Charge)) (groupBy : Granularity) :
    AnalyzeResult :=
  match fetched with
  | .error msg =>
    { summary := { totalRevenue := 0, transactionCount := 0, averageTransaction := 0 }
      periodData := []
      insights := []
      error := some ("Failed to analyze revenue trends: " ++ msg) }
  | .ok data =>
    let charges := data.filter fun c => decide (c.status = "succeeded")
    let totalRevenue : ℚ :=
      ((charges.foldl (fun sum c => sum + c.amount) 0 : Nat) : ℚ) / 100
    let transactionCount := charges.length
    let averageTransaction :=
      if 0 < transactionCount then totalRevenue / (transactionCount : ℚ) else 0
    let groupedData := groupChargesByPeriod charges groupBy
    let insights := generateInsights groupedData totalRevenue
    { summary :=
        { totalRevenue := totalRevenue
          transactionCount := transactionCount
          averageTransaction := jsRound2 averageTransaction }
      periodData := groupedData
      insights := insights
      error := none }

/-- The return value of `issueRefund`. -/
structure RefundResult where
  status : String
  amountRefunded : ℚ
  error : Option String
deriving DecidableEq, Repr

/-- `issueRefund`, with `stripe.refunds.create` abstracted as a ledger
function from (payment intent id, minor-unit amount) to either the
confirmed refund object's `amount` (minor units) or a thrown error.
The request amount is `Math.round(amount * 100)`. -/
def issueRefund (ledger : String → Int → Except String Nat)
    (paymentIntentId : String) (amount : ℚ) : RefundResult :=
  match ledger paymentIntentId (jsRound (amount * 100)) with
  | .ok refunded =>
    { status := "success", amountRefunded := (refunded : ℚ) / 100, error := none }
  | .error msg =>
    { status := "error", amountRefunded := 0
      error := some ("Failed to issue refund: " ++ msg) }

/-! ## Helper functions and invariants of the grouping fold -/

/-- Total minor-unit amount of a charge list. -/
def minorSum (cs : List Charge) : Nat := (cs.map (fun c => c.amount)).sum

/-- The charges of `cs` that fall into the bucket keyed `k` under
granularity `g`. -/
def bucketCharges (g : Granularity) (k : String) (cs : List Charge) : List Charge :=
  cs.filter fun c => decide (keyOf g c = k)

/-- Revenue recorded for key `k` in the map (0 when absent). -/
def revAt (k : String) : List Entry → ℚ
  | [] => 0
  | e :: rest => if e.1 = k then e.2.1 else revAt k rest

/-- Count recorded for key `k` in the map (0 when absent). -/
def cntAt (k : String) : List Entry → Nat
  | [] => 0
  | e :: rest => if e.1 = k then e.2.2 else cntAt k rest

/-- Sum of the recorded revenues over all map entries. -/
def revSum (m : List Entry) : ℚ := (m.map (fun e => e.2.1)).sum

/-- Sum of the recorded counts over all map entries. -/
def cntSum (m : List Entry) : Nat := (m.map (fun e => e.2.2)).sum

/-- The key column of the map. -/
def keys (m : List Entry) : List String := m.map (fun e => e.1)

theorem keys_nil : keys [] = [] := rfl

theorem keys_cons (e : Entry) (l : List Entry) : keys (e :: l) = e.1 :: keys l := rfl

theorem mem_keys_of_mem {e : Entry} {m : List Entry} (h : e ∈ m) : e.1 ∈ keys m :=
  List.mem_map_of_mem (fun x => x.1) h

theorem revAt_updateEntry (k k' : String) (amt : Nat) (m : List Entry) :
    revAt k (updateEntry k' amt m)
      = revAt k m + if k' = k then (amt : ℚ) / 100 else 0 := by
  induction m with
  | nil =>
    by_cases h : k' = k <;> simp [updateEntry, revAt, h]
  | cons e rest ih =>
    obtain ⟨k₀, r, n⟩ := e
    by_cases h₁ : k₀ = k'
    · subst h₁
      by_cases h₂ : k₀ = k
      · subst h₂
        simp [updateEntry, revAt]
      · simp [updateEntry, revAt, h₂]
    · by_cases h₂ : k₀ = k
      · subst h₂
        have h₃ : k' ≠ k₀ := fun hh => h₁ hh.symm
        simp [updateEntry, revAt, h₁, h₃]
      · simp [updateEntry, revAt, h₁, h₂, ih]

theorem cntAt_updateEntry (k k' : String) (amt : Nat) (m : List Entry) :
    cntAt k (updateEntry k' amt m)
      = cntAt k m + if k' = k then 1 else 0 := by
  induction m with
  | nil =>
    by_cases h : k' = k <;> simp [updateEntry, cntAt, h]
  | cons e rest ih =>
    obtain ⟨k₀, r, n⟩ := e
    by_cases h₁ : k₀ = k'
    · subst h₁
      by_cases h₂ : k₀ = k
      · subst h₂
        simp [updateEntry, cntAt]
      · simp [updateEntry, cntAt, h₂]
    · by_cases h₂ : k₀ = k
      · subst h₂
        have h₃ : k' ≠ k₀ := fun hh => h₁ hh.symm
        simp [updateEntry, cntAt, h₁, h₃]
      · simp [updateEntry, cntAt, h₁, h₂, ih]

theorem revSum_updateEntry (k : String) (amt : Nat) (m : List Entry) :
    revSum (updateEntry k amt m) = revSum m + (amt : ℚ) / 100 := by
  induction m with
  | nil => simp [updateEntry, revSum]
  | cons e rest ih =>
    obtain ⟨k₀, r, n⟩ := e
    by_cases h : k₀ = k <;> simp_all [updateEntry, revSum] <;> ring

theorem cntSum_updateEntry (k : String) (amt : Nat) (m : List Entry) :
    cntSum (updateEntry k amt m) = cntSum m + 1 := by
  induction m with
  | nil => simp [updateEntry, cntSum]
  | cons e rest ih =>
    obtain ⟨k₀, r, n⟩ := e
    by_cases h : k₀ = k <;> simp_all [updateEntry, cntSum] <;> omega

theorem revAt_foldl (g : Granularity) (k : String) (cs : List Charge) :
    ∀ m : List Entry,
      revAt k (cs.foldl (addCharge g) m)
        = revAt k m + (minorSum (bucketCharges g k cs) : ℚ) / 100 := by
  induction cs with
  | nil => intro m; simp [minorSum, bucketCharges]
  | cons c rest ih =>
    intro m
    simp only [List.foldl_cons, addCharge]
    rw [ih, revAt_updateEntry]
    by_cases h : keyOf g c = k <;>
      simp [bucketCharges, minorSum, List.filter_cons, h] <;> push_cast <;> ring

theorem cntAt_foldl (g : Granularity) (k : String) (cs : List Charge) :
    ∀ m : List Entry,
      cntAt k (cs.foldl (addCharge g) m)
        = cntAt k m + (bucketCharges g k cs).length := by
  induction cs with
  | nil => intro m; simp [bucketCharges]
  | cons c rest ih =>
    intro m
    simp only [List.foldl_cons, addCharge]
    rw [ih, cntAt_updateEntry]
    by_cases h : keyOf g c = k <;>
      simp [bucketCharges, List.filter_cons, h] <;> omega

theorem revSum_foldl (g : Granularity) (cs : List Charge) :
    ∀ m : List Entry,
      revSum (cs.foldl (addCharge g) m) = revSum m + (minorSum cs : ℚ) / 100 := by
  induction cs with
  | nil => intro m; simp [minorSum]
  | cons c rest ih =>
    intro m
    simp only [List.foldl_cons, addCharge]
    rw [ih, revSum_updateEntry]
    simp [minorSum]
    push_cast
    ring

theorem cntSum_foldl (g : Granularity) (cs : List Charge) :
    ∀ m : List Entry,
      cntSum (cs.foldl (addCharge g) m) = cntSum m + cs.length := by
  induction cs with
  | nil => intro m; simp
  | cons c rest ih =>
    intro m
    simp only [List.foldl_cons, addCharge]
    rw [ih, cntSum_updateEntry]
    simp only [List.length_cons]
    omega

/-- Every revenue in the map is a whole number of cents. -/
def IsCents (m : List Entry) : Prop := ∀ e ∈ m, ∃ n : ℕ, e.2.1 = (n : ℚ) / 100

theorem isCents_updateEntry (k : String) (amt : Nat) (m : List Entry)
    (h : IsCents m) : IsCents (updateEntry k amt m) := by
  induction m with
  | nil =>
    intro e he
    simp only [updateEntry, List.mem_singleton] at he
    exact ⟨amt, by rw [he]⟩
  | cons e₀ rest ih =>
    obtain ⟨k₀, r, n⟩ := e₀
    have hr : ∃ n₀ : ℕ, r = (n₀ : ℚ) / 100 := h _ (List.mem_cons_self _ _)
    have hrest : IsCents rest := fun e he => h e (List.mem_cons_of_mem _ he)
    by_cases hk : k₀ = k
    · intro e he
      simp only [updateEntry, if_pos hk] at he
      rcases List.mem_cons.mp he with rfl | he'
      · obtain ⟨n₀, rfl⟩ := hr
        exact ⟨n₀ + amt, by push_cast; ring⟩
      · exact hrest e he'
    · intro e he
      simp only [updateEntry, if_neg hk] at he
      rcases List.mem_cons.mp he with rfl | he'
      · exact hr
      · exact ih hrest e he'

theorem isCents_foldl (g : Granularity) (cs : List Charge) :
    ∀ m : List Entry, IsCents m → IsCents (cs.foldl (addCharge g) m) := by
  induction cs with
  | nil => intro m h; exact h
  | cons c rest ih =>
    intro m h
    simp only [List.foldl_cons, addCharge]
    exact ih _ (isCents_updateEntry _ _ _ h)

theorem jsRound2_cents (n : ℕ) : jsRound2 ((n : ℚ) / 100) = (n : ℚ) / 100 := by
  have h100 : (100 : ℚ) ≠ 0 := by norm_num
  have hx : ((n : ℚ) / 100) * 100 = (n : ℚ) := div_mul_cancel₀ _ h100
  have hfloor : jsRound ((n : ℚ)) = (n : ℤ) := by
    unfold jsRound
    rw [Int.floor_nat_add]
    norm_num
  unfold jsRound2
  rw [hx, hfloor]
  push_cast
  ring

theorem updateEntry_nil (k : String) (amt : Nat) :
    updateEntry k amt [] = [(k, (amt : ℚ) / 100, 1)] := rfl

theorem updateEntry_cons_same (k : String) (amt : Nat) (r : ℚ) (n : Nat)
    (rest : List Entry) :
    updateEntry k amt ((k, r, n) :: rest) = (k, r + (amt : ℚ) / 100, n + 1) :: rest := by
  simp [updateEntry]

theorem updateEntry_cons_ne (k k₀ : String) (amt : Nat) (r : ℚ) (n : Nat)
    (rest : List Entry) (h : k₀ ≠ k) :
    updateEntry k amt ((k₀, r, n) :: rest) = (k₀, r, n) :: updateEntry k amt rest := by
  simp [updateEntry, h]

theorem mem_keys_updateEntry (k k' : String) (amt : Nat) (m : List Entry) :
    k ∈ keys (updateEntry k' amt m) ↔ k ∈ keys m ∨ k = k' := by
  induction m with
  | nil => simp [updateEntry_nil, keys_cons, keys_nil, eq_comm]
  | cons e rest ih =>
    obtain ⟨k₀, r, n⟩ := e
    by_cases h : k₀ = k'
    · subst h
      rw [updateEntry_cons_same, keys_cons, keys_cons]
      simp only [List.mem_cons]
      tauto
    · rw [updateEntry_cons_ne _ _ _ _ _ _ h, keys_cons, keys_cons]
      simp only [List.mem_cons, ih]
      tauto

theorem keys_nodup_updateEntry (k' : String) (amt : Nat) (m : List Entry)
    (h : (keys m).Nodup) : (keys (updateEntry k' amt m)).Nodup := by
  induction m with
  | nil => simp [updateEntry_nil, keys_cons, keys_nil]
  | cons e rest ih =>
    obtain ⟨k₀, r, n⟩ := e
    rw [keys_cons, List.nodup_cons] at h
    obtain ⟨hnot, hrest⟩ := h
    by_cases hk : k₀ = k'
    · subst hk
      rw [updateEntry_cons_same, keys_cons, List.nodup_cons]
      exact ⟨hnot, hrest⟩
    · rw [updateEntry_cons_ne _ _ _ _ _ _ hk, keys_cons, List.nodup_cons]
      refine ⟨fun hmem => ?_, ih hrest⟩
      rcases (mem_keys_updateEntry k₀ k' amt rest).mp hmem with h' | h'
      · exact hnot h'
      · exact hk h'

theorem keys_nodup_foldl (g : Granularity) (cs : List Charge) :
    ∀ m : List Entry, (keys m).Nodup → (keys (cs.foldl (addCharge g) m)).Nodup := by
  induction cs with
  | nil => intro m h; exact h
  | cons c rest ih =>
    intro m h
    simp only [List.foldl_cons, addCharge]
    exact ih _ (keys_nodup_updateEntry _ _ _ h)

theorem entry_values_of_nodup (m : List Entry) (h : (keys m).Nodup) :
    ∀ e ∈ m, e.2.1 = revAt e.1 m ∧ e.2.2 = cntAt e.1 m := by
  induction m with
  | nil => intro e he; cases he
  | cons e₀ rest ih =>
    intro e he
    rw [keys_cons, List.nodup_cons] at h
    obtain ⟨hnot, hrest⟩ := h
    rcases List.mem_cons.mp he with rfl | he'
    · simp [revAt, cntAt]
    · have hne : e₀.1 ≠ e.1 := by
        intro hk
        exact hnot (hk ▸ mem_keys_of_mem he')
      simp only [revAt, cntAt, if_neg hne]
      exact ih hrest e he'

/-! ## The sorts are permutations -/

theorem insertByPeriod_perm (b : PeriodBucket) (l : List PeriodBucket) :
    (insertByPeriod b l).Perm (b :: l) := by
  induction l with
  | nil => exact List.Perm.refl _
  | cons x xs ih =>
    by_cases h : strLe b.period x.period
    · simp [insertByPeriod, h]
    · simp only [insertByPeriod, if_neg h]
      exact (ih.cons x).trans (List.Perm.swap b x xs)

theorem sortByPeriod_perm (l : List PeriodBucket) : (sortByPeriod l).Perm l := by
  induction l with
  | nil => exact List.Perm.refl _
  | cons x xs ih =>
    exact (insertByPeriod_perm x (sortByPeriod xs)).trans (ih.cons x)

theorem insertDesc_perm (b : PeriodBucket) (l : List PeriodBucket) :
    (insertDesc b l).Perm (b :: l) := by
  induction l with
  | nil => exact List.Perm.refl _
  | cons x xs ih =>
    by_cases h : x.revenue ≤ b.revenue
    · simp [insertDesc, h]
    · simp only [insertDesc, if_neg h]
      exact (ih.cons x).trans (List.Perm.swap b x xs)

theorem sortByRevenueDesc_perm (l : List PeriodBucket) :
    (sortByRevenueDesc l).Perm l := by
  induction l with
  | nil => exact List.Perm.refl _
  | cons x xs ih =>
    exact (insertDesc_perm x (sortByRevenueDesc xs)).trans (ih.cons x)

/-! ## Aggregate facts about `groupChargesByPeriod` -/

theorem foldl_amount (cs : List Charge) (a : Nat) :
    cs.foldl (fun sum c => sum + c.amount) a = a + minorSum cs := by
  induction cs generalizing a with
  | nil => simp [minorSum]
  | cons c rest ih =>
    simp only [List.foldl_cons, ih, minorSum, List.map_cons, List.sum_cons]
    omega

theorem groupCharges_entries_cents (cs : List Charge) (g : Granularity) :
    ∀ e ∈ cs.foldl (addCharge g) [], ∃ n : ℕ, e.2.1 = (n : ℚ) / 100 :=
  isCents_foldl g cs [] (fun e he => absurd he (List.not_mem_nil e))

theorem groupCharges_revenue_sum (cs : List Charge) (g : Granularity) :
    ((groupChargesByPeriod cs g).map (fun b => b.revenue)).sum
      = (minorSum cs : ℚ) / 100 := by
  unfold groupChargesByPeriod
  rw [((sortByPeriod_perm _).map (fun b => b.revenue)).sum_eq]
  rw [List.map_map]
  have hcongr :
      ((cs.foldl (addCharge g) []).map ((fun b => b.revenue) ∘ toBucket))
        = ((cs.foldl (addCharge g) []).map (fun e => e.2.1)) := by
    refine List.map_congr_left fun e he => ?_
    obtain ⟨n, hn⟩ := groupCharges_entries_cents cs g e he
    simp [toBucket, hn, jsRound2_cents]
  rw [hcongr]
  have := revSum_foldl g cs []
  simp only [revSum] at this
  simpa using this

theorem groupCharges_count_sum (cs : List Charge) (g : Granularity) :
    ((groupChargesByPeriod cs g).map (fun b => b.transactionCount)).sum = cs.length := by
  unfold groupChargesByPeriod
  rw [((sortByPeriod_perm _).map (fun b => b.transactionCount)).sum_eq]
  rw [List.map_map]
  have hcongr :
      ((cs.foldl (addCharge g) []).map ((fun b => b.transactionCount) ∘ toBucket))
        = ((cs.foldl (addCharge g) []).map (fun e => e.2.2)) :=
    List.map_congr_left fun e _ => rfl
  rw [hcongr]
  have := cntSum_foldl g cs []
  simp only [cntSum] at this
  simpa using this

theorem groupCharges_periods_nodup (cs : List Charge) (g : Granularity) :
    ((groupChargesByPeriod cs g).map (fun b => b.period)).Nodup := by
  unfold groupChargesByPeriod
  rw [((sortByPeriod_perm _).map (fun b => b.period)).nodup_iff]
  rw [List.map_map]
  have hcongr :
      ((cs.foldl (addCharge g) []).map ((fun b => b.period) ∘ toBucket))
        = keys (cs.foldl (addCharge g) []) :=
    List.map_congr_left fun e _ => rfl
  rw [hcongr]
  exact keys_nodup_foldl g cs [] (by simp [keys])

theorem groupCharges_mem (cs : List Charge) (g : Granularity) (b : PeriodBucket)
    (hb : b ∈ groupChargesByPeriod cs g) :
    ∃ e ∈ cs.foldl (addCharge g) [], toBucket e = b := by
  unfold groupChargesByPeriod at hb
  rw [(sortByPeriod_perm _).mem_iff] at hb
  exact List.mem_map.mp hb

/-! ## Head of the stable descending sort -/

/-- Maximum revenue over a bucket list (only used on nonempty lists). -/
def maxRev : List PeriodBucket → ℚ
  | [] => 0
  | [b] => b.revenue
  | b :: rest => max b.revenue (maxRev rest)

theorem insertDesc_cons_head (b x : PeriodBucket) (xs : List PeriodBucket) :
    (insertDesc b (x :: xs)).head? =
      some (if x.revenue ≤ b.revenue then b else x) := by
  by_cases h : x.revenue ≤ b.revenue <;> simp [insertDesc, h]

theorem sortByRevenueDesc_ne_nil (x : PeriodBucket) (xs : List PeriodBucket) :
    sortByRevenueDesc (x :: xs) ≠ [] := by
  intro hcontra
  have := (sortByRevenueDesc_perm (x :: xs)).length_eq
  rw [hcontra] at this
  simp at this

theorem maxRev_cons (x y : PeriodBucket) (ys : List PeriodBucket) :
    maxRev (x :: y :: ys) = max x.revenue (maxRev (y :: ys)) := rfl

theorem head_sortByRevenueDesc (x : PeriodBucket) (xs : List PeriodBucket) :
    (sortByRevenueDesc (x :: xs)).head? =
      (x :: xs).find? fun b => decide (b.revenue = maxRev (x :: xs)) := by
  induction xs generalizing x with
  | nil => simp [sortByRevenueDesc, insertDesc, maxRev]
  | cons y ys ih =>
    have hsort :
        sortByRevenueDesc (x :: y :: ys) = insertDesc x (sortByRevenueDesc (y :: ys)) := rfl
    obtain ⟨h, tail, htail⟩ :
        ∃ h tail, sortByRevenueDesc (y :: ys) = h :: tail := by
      cases hs : sortByRevenueDesc (y :: ys) with
      | nil => exact absurd hs (sortByRevenueDesc_ne_nil y ys)
      | cons h tail => exact ⟨h, tail, rfl⟩
    have hhead : h.revenue = maxRev (y :: ys) := by
      have := ih y
      rw [htail] at this
      simp only [List.head?_cons] at this
      have hp := List.find?_some this.symm
      exact of_decide_eq_true hp
    rw [hsort, htail, insertDesc_cons_head, maxRev_cons, ← hhead]
    by_cases hle : h.revenue ≤ x.revenue
    · have hmax : max x.revenue h.revenue = x.revenue := max_eq_left hle
      rw [if_pos hle, hmax]
      rw [List.find?_cons_of_pos _ (by simp)]
    · have hlt : x.revenue < h.revenue := lt_of_not_le hle
      have hmax : max x.revenue h.revenue = h.revenue := max_eq_right (le_of_lt hlt)
      rw [if_neg hle, hmax]
      rw [List.find?_cons_of_neg _ (by simp [ne_of_lt hlt])]
      have := ih y
      rw [htail] at this
      simp only [List.head?_cons] at this
      rw [← hhead] at this
      exact this

/-! ## Structure of `generateInsights` -/

theorem foldl_count (pd : List PeriodBucket) (a : Nat) :
    pd.foldl (fun sum p => sum + p.transactionCount) a
      = a + (pd.map (fun b => b.transactionCount)).sum := by
  induction pd generalizing a with
  | nil => simp
  | cons p rest ih =>
    simp only [List.foldl_cons, ih, List.map_cons, List.sum_cons]
    omega

theorem generateInsights_eq (pd : List PeriodBucket) (t : ℚ) :
    generateInsights pd t =
      (if 1 ≤ pd.length
        then [highestLine ((sortByRevenueDesc pd).headD dfltBucket)] else [])
      ++ (if 2 ≤ pd.length
        then [lowestLine ((sortByRevenueDesc pd).getLastD dfltBucket)] else [])
      ++ [avgLine (if pd.length = 0 then 0 else t / (pd.length : ℚ))]
      ++ (if 0 < (pd.map (fun b => b.transactionCount)).sum
        then [countLine ((pd.map (fun b => b.transactionCount)).sum)] else []) := by
  unfold generateInsights
  rw [foldl_count]
  rcases pd with _ | ⟨a, _ | ⟨b, l⟩⟩
  · simp
  · have h1 : (0 : ℕ) < ([a] : List PeriodBucket).length := by simp
    simp only [List.length_cons, List.length_nil, Nat.zero_add]
    norm_num
    split <;> simp
  · have hlen : (a :: b :: l).length = l.length + 2 := by simp
    simp only [hlen]
    have h0 : 0 < l.length + 2 := by omega
    have h1 : 1 < l.length + 2 := by omega
    have h1' : 1 ≤ l.length + 2 := by omega
    have h2 : 2 ≤ l.length + 2 := by omega
    have hne : ¬(l.length + 2 = 0) := by omega
    simp [h0, h1, h1', h2, hne]
    split <;> simp


/-! ## Claim theorems -/

/-- Modelled from the spec (week key contract): the Monday on or before
the charge's UTC creation date, computed as `date − ((weekday_index + 6) % 7)`
days with Sunday = 0, rendered `YYYY-MM-DD`.  Used only as the
comparator that claim C1 asserts the code implements. -/
def mondayOnOrBefore (created : Nat) : String :=
  let d := created / 86400
  dateToString (civilFromDays ((d : Int) - ((weekdayOf d + 6) % 7)))

/-- Claim C1 (code bug): for the Sunday charge created at Unix time
1704585600 (2024-01-07T00:00:00Z), `groupChargesByPeriod` with week
granularity produces the key 2024-01-08 — the following Monday —
whereas the claim's formula (the Monday on or before, ISO-style) gives
2024-01-01.  The source's own comments (Get ISO week Monday-based /
Monday) state the claimed intent, but
`date.getDate() - date.getDay() + 1` moves a Sunday one day forward
instead of six days back. -/
theorem week_key_sunday_divergence :
    (groupChargesByPeriod [⟨1000, 1704585600, "succeeded"⟩] Granularity.week).map
        (fun b => b.period) = ["2024-01-08"]
      ∧ mondayOnOrBefore 1704585600 = "2024-01-01"
      ∧ weekdayOf (1704585600 / 86400) = 0 := by
  with_unfolding_all decide

/-- Claim C2, counterexample: on an empty fetched transaction set the
insights list is not empty — `generateInsights` pushes the average line
unconditionally. -/
theorem empty_fetch_insights_nonempty :
    (analyzeRevenueTrends (Except.ok []) Granularity.day).insights ≠ [] := by
  with_unfolding_all decide

/-- Claim C2 (amended): an empty fetched transaction set yields, for
every granularity, a success payload with all summary fields zero,
empty periodData, no error field, and insights consisting of exactly
the single line "Average revenue per period: $0.00". -/
theorem empty_fetch_payload (g : Granularity) :
    analyzeRevenueTrends (Except.ok []) g =
      { summary := { totalRevenue := 0, transactionCount := 0, averageTransaction := 0 }
        periodData := []
        insights := ["Average revenue per period: $0.00"]
        error := none } := by
  cases g <;> with_unfolding_all decide

/-- Claim C3: for every nonempty charge list and every granularity, the
sum of the per-bucket revenues differs from the total revenue computed
directly from the same list (minor-unit sum divided by 100) by at most
one cent per bucket.  In the exact-rational model of JS numbers the
difference is exactly 0, which satisfies the bound. -/
theorem bucket_sum_matches_total (charges : List Charge) (g : Granularity)
    (_hne : charges ≠ []) :
    |((groupChargesByPeriod charges g).map (fun b => b.revenue)).sum
        - ((charges.foldl (fun sum c => sum + c.amount) 0 : Nat) : ℚ) / 100|
      ≤ ((groupChargesByPeriod charges g).length : ℚ) * (1 / 100) := by
  rw [foldl_amount charges 0]
  simp only [Nat.zero_add]
  rw [groupCharges_revenue_sum, sub_self, abs_zero]
  positivity

/-- Witness for C3 at a concrete one-charge list. -/
theorem bucket_sum_matches_total_witness :
    (([⟨1000, 1704585600, "succeeded"⟩] : List Charge) ≠ [])
    ∧ |((groupChargesByPeriod [⟨1000, 1704585600, "succeeded"⟩] Granularity.day).map
            (fun b => b.revenue)).sum
          - ((([⟨1000, 1704585600, "succeeded"⟩] : List Charge).foldl
              (fun sum c => sum + c.amount) 0 : Nat) : ℚ) / 100|
        ≤ ((groupChargesByPeriod [⟨1000, 1704585600, "succeeded"⟩]
            Granularity.day).length : ℚ) * (1 / 100) :=
  ⟨by decide,
    bucket_sum_matches_total [⟨1000, 1704585600, "succeeded"⟩] Granularity.day (by decide)⟩

/-- Claim C4: every bucket's reported revenue equals the integer sum of
that bucket's minor-unit amounts, divided by 100 and rounded once to two
decimals.  In exact rational arithmetic the source's per-transaction
major-unit accumulation coincides with this minor-units-first
computation, and the single output-boundary `Math.round` is the only
rounding. -/
theorem bucket_revenue_minor_units (charges : List Charge) (g : Granularity)
    (b : PeriodBucket) (hb : b ∈ groupChargesByPeriod charges g) :
    b.revenue =
      jsRound2
        ((((charges.filter fun c => decide (keyOf g c = b.period)).foldl
            (fun sum c => sum + c.amount) 0 : Nat) : ℚ) / 100) := by
  obtain ⟨e, he, hbe⟩ := groupCharges_mem charges g b hb
  have hnodup := keys_nodup_foldl g charges [] (by simp [keys])
  have hval := (entry_values_of_nodup _ hnodup e he).1
  have hrev := revAt_foldl g e.1 charges []
  have hzero : revAt e.1 ([] : List Entry) = 0 := rfl
  rw [hzero, zero_add] at hrev
  subst hbe
  show jsRound2 e.2.1 = _
  rw [hval, hrev, foldl_amount, Nat.zero_add]
  rfl

/-- Witness for C4 at a concrete one-charge list and its single bucket. -/
theorem bucket_revenue_minor_units_witness :
    ((⟨"2024-01-08", 10, 1⟩ : PeriodBucket) ∈
        groupChargesByPeriod [⟨1000, 1704585600, "succeeded"⟩] Granularity.week)
    ∧ (⟨"2024-01-08", 10, 1⟩ : PeriodBucket).revenue =
        jsRound2
          ((((([⟨1000, 1704585600, "succeeded"⟩] : List Charge).filter
              (fun c => decide (keyOf Granularity.week c
                = (⟨"2024-01-08", 10, 1⟩ : PeriodBucket).period))).foldl
              (fun sum c => sum + c.amount) 0 : Nat) : ℚ) / 100) :=
  ⟨by with_unfolding_all decide,
    bucket_revenue_minor_units _ _ _ (by with_unfolding_all decide)⟩

/-- Claim C5: `generateInsights` emits exactly, in this order: a
highest-revenue line iff at least one bucket exists; a lowest-revenue
line iff at least two exist; always the average line whose value is
totalRevenue divided by the bucket count (0 when there are none); and
the successful-transaction-count line iff the total transaction count
over the buckets is positive — no other lines, in no other order. -/
theorem insights_fixed_order (pd : List PeriodBucket) (t : ℚ) :
    generateInsights pd t =
      (if 1 ≤ pd.length
        then [highestLine ((sortByRevenueDesc pd).headD dfltBucket)] else [])
      ++ (if 2 ≤ pd.length
        then [lowestLine ((sortByRevenueDesc pd).getLastD dfltBucket)] else [])
      ++ [avgLine (if pd.length = 0 then 0 else t / (pd.length : ℚ))]
      ++ (if 0 < (pd.map (fun b => b.transactionCount)).sum
        then [countLine ((pd.map (fun b => b.transactionCount)).sum)] else []) :=
  generateInsights_eq pd t

/-- Claim C6: when two or more buckets share the maximum revenue, the
highest-revenue insight names the bucket occurring earliest in input
order (the head of the stable descending sort is the first maximum). -/
theorem tie_break_earliest_wins (pd : List PeriodBucket) (t : ℚ) (b : PeriodBucket)
    (htie : 2 ≤ (pd.filter fun x => decide (x.revenue = maxRev pd)).length)
    (hfirst : pd.find? (fun x => decide (x.revenue = maxRev pd)) = some b) :
    (generateInsights pd t).head? = some (highestLine b) := by
  obtain ⟨x, xs, rfl⟩ : ∃ x xs, pd = x :: xs := by
    cases pd with
    | nil => simp at htie
    | cons x xs => exact ⟨x, xs, rfl⟩
  rw [generateInsights_eq]
  have h1 : 1 ≤ (x :: xs).length := by simp
  rw [if_pos h1]
  have hb : (sortByRevenueDesc (x :: xs)).headD dfltBucket = b := by
    have hh := head_sortByRevenueDesc x xs
    rw [hfirst] at hh
    cases hs : sortByRevenueDesc (x :: xs) with
    | nil => exact absurd hs (sortByRevenueDesc_ne_nil x xs)
    | cons h tail =>
      rw [hs] at hh
      simp only [List.head?_cons] at hh
      simp only [List.headD_cons]
      exact Option.some.inj hh
  rw [hb]
  simp

/-- Witness for C6 with two buckets sharing the maximum revenue. -/
theorem tie_break_earliest_wins_witness :
    2 ≤ (([⟨"2024-01-01", 5, 1⟩, ⟨"2024-01-02", 5, 1⟩] : List PeriodBucket).filter
          fun x => decide
            (x.revenue = maxRev [⟨"2024-01-01", 5, 1⟩, ⟨"2024-01-02", 5, 1⟩])).length
    ∧ (generateInsights [⟨"2024-01-01", 5, 1⟩, ⟨"2024-01-02", 5, 1⟩] 10).head?
        = some (highestLine ⟨"2024-01-01", 5, 1⟩) :=
  ⟨by with_unfolding_all decide,
    tie_break_earliest_wins _ 10 _ (by with_unfolding_all decide)
      (by with_unfolding_all decide)⟩

/-- Claim C7: a charge whose status is not "succeeded" contributes
nothing — inserting it anywhere in the fetched list leaves the entire
payload (summary, periodData, insights) unchanged, whatever its amount. -/
theorem non_succeeded_charge_excluded (pre post : List Charge) (c : Charge)
    (g : Granularity) (h : c.status ≠ "succeeded") :
    analyzeRevenueTrends (Except.ok (pre ++ c :: post)) g
      = analyzeRevenueTrends (Except.ok (pre ++ post)) g := by
  unfold analyzeRevenueTrends
  simp [List.filter_append, List.filter_cons, h]

/-- Witness for C7: a failed charge of 999999 cents among one succeeded
charge changes nothing. -/
theorem non_succeeded_charge_excluded_witness :
    ((⟨999999, 1704585600, "failed"⟩ : Charge).status ≠ "succeeded")
    ∧ analyzeRevenueTrends
        (Except.ok (([] : List Charge)
          ++ (⟨999999, 1704585600, "failed"⟩ : Charge)
            :: [⟨1000, 1704585600, "succeeded"⟩])) Granularity.day
      = analyzeRevenueTrends
          (Except.ok (([] : List Charge) ++ [⟨1000, 1704585600, "succeeded"⟩]))
          Granularity.day :=
  ⟨by decide,
    non_succeeded_charge_excluded [] [⟨1000, 1704585600, "succeeded"⟩]
      ⟨999999, 1704585600, "failed"⟩ Granularity.day (by decide)⟩

/-- Claim C8: `analyzeRevenueTrends` never lets a failure escape: a
thrown failure (network, API error, malformed data) becomes a payload
with zeroed summary, empty periodData and insights, and a populated
error message; a successful fetch yields a payload whose error field is
absent. -/
theorem analyze_fail_soft (msg : String) (data : List Charge) (g : Granularity) :
    analyzeRevenueTrends (Except.error msg) g =
      { summary := { totalRevenue := 0, transactionCount := 0, averageTransaction := 0 }
        periodData := []
        insights := []
        error := some ("Failed to analyze revenue trends: " ++ msg) }
    ∧ (analyzeRevenueTrends (Except.ok data) g).error = none :=
  ⟨rfl, rfl⟩

/-- Claim C9: `issueRefund` submits `Math.round(amount * 100)` minor
units to the ledger; on confirmation it reports status "success" with
the ledger-confirmed refunded amount divided by 100 (not the request
echoed back), and on a ledger failure it reports status "error", a zero
amount and an error message — in both cases returning, never raising. -/
theorem issue_refund_contract (ledger : String → Int → Except String Nat)
    (pid : String) (amount : ℚ) :
    (∀ refunded : Nat, ledger pid (jsRound (amount * 100)) = Except.ok refunded →
      issueRefund ledger pid amount =
        { status := "success", amountRefunded := (refunded : ℚ) / 100, error := none })
    ∧ ∀ msg : String, ledger pid (jsRound (amount * 100)) = Except.error msg →
      issueRefund ledger pid amount =
        { status := "error", amountRefunded := 0
          error := some ("Failed to issue refund: " ++ msg) } := by
  constructor
  · intro refunded h
    unfold issueRefund
    rw [h]
  · intro msg h
    unfold issueRefund
    rw [h]

/-- Witness for C9: a ledger confirming 250 cents against a 7.50 request
yields amountRefunded 2.50 — the confirmed value, not the echo. -/
theorem issue_refund_contract_witness :
    issueRefund (fun _ _ => Except.ok 250) "pi_1" (75 / 10) =
      { status := "success", amountRefunded := ((250 : Nat) : ℚ) / 100, error := none } :=
  (issue_refund_contract (fun _ _ => Except.ok 250) "pi_1" (75 / 10)).1 250 rfl

/-- Claim C10: in every success payload the summary transaction count
equals the sum of the per-bucket transaction counts (each retained
charge lands in exactly one bucket) and the period labels of periodData
are pairwise distinct. -/
theorem analyze_success_partition (data : List Charge) (g : Granularity) :
    (analyzeRevenueTrends (Except.ok data) g).summary.transactionCount
      = ((analyzeRevenueTrends (Except.ok data) g).periodData.map
          (fun b => b.transactionCount)).sum
    ∧ ((analyzeRevenueTrends (Except.ok data) g).periodData.map
        (fun b => b.period)).Nodup := by
  constructor
  · show (data.filter fun c => decide (c.status = "succeeded")).length = _
    exact (groupCharges_count_sum _ g).symm
  · exact groupCharges_periods_nodup _ g

end Cashflow
